import Mathlib

/-!
Shallow embedding of the chat-streaming coordinator of
`src/frontend/src/hooks/useChatStream.ts` (current revision) and of the
older stream-handler revision found in `src/unnamed/part_005`.

The TypeScript hook keeps React state (messages, citations, query rewrites,
token usage, processing metadata, loading/streaming flags, session id) and a
`localStorage` map.  We model that state as an explicit record threaded
through pure functions.  `new Date()` / `Date.now()` calls are modelled by a
monotone counter `clock` in the state: each call reads the counter and bumps
it.  JSON numbers that the claims never compute with are embedded as `Int`
(token counts, processing time) or `Rat` (relevance score, cost).

The wire protocol delivers newline separated `data: <JSON>` frames.  A frame
is a JSON object with optional keys; we embed it as a record of `Option`
fields with JavaScript truthiness made explicit:
  - a string field is truthy iff present and non-empty,
  - an array/object field is truthy iff present (JS arrays and objects are
    always truthy, even `[]`),
  - `done` is truthy iff `true`.
A line of a chunk either lacks the `data: ` marker (skipped), fails to
decode as JSON (the `catch (parseError)` path), or yields a frame; JSON
decoding itself is the external boundary, so a line is embedded as that
three-way alternative directly.
-/

inductive Role where
  | user
  | assistant
deriving DecidableEq, Repr

structure Message where
  role : Role
  content : String
  timestamp : Nat
deriving DecidableEq, Repr

structure Citation where
  id : String
  title : String
  content : String
  source : String
  url : Option String := none
  score : Option Rat := none
  verification : Option Bool := none
deriving DecidableEq, Repr

structure TokenUsage where
  prompt_tokens : Int
  completion_tokens : Int
  total_tokens : Int
  model : Option String := none
  cost : Option Rat := none
  error : Option String := none
deriving DecidableEq, Repr

structure ProcessingMetadata where
  processing_time_ms : Int
  retrieval_method : String
  success : Bool
deriving DecidableEq, Repr

/-- The client-side state of the `useChatStream` hook: the React state
variables plus the `localStorage` map (an association list) and the clock
counter standing for wall time observations. -/
structure ChatState where
  messages : List Message
  citations : List Citation
  queryRewrites : List String
  tokenUsage : Option TokenUsage
  processingMetadata : Option ProcessingMetadata
  isLoading : Bool
  isStreaming : Bool
  sessionId : String
  storage : List (String × String)
  clock : Nat
deriving DecidableEq, Repr

def initState : ChatState where
  messages := []
  citations := []
  queryRewrites := []
  tokenUsage := none
  processingMetadata := none
  isLoading := false
  isStreaming := false
  sessionId := ""
  storage := []
  clock := 0

/-- One decoded wire frame: a JSON object with optional keys.  The current
revision reads `token`, `type` + (`citations`/`rewrites`/`usage`/
`processing`), `error`, `done`; the older revision reads the bare keys
`citations`, `query_rewrites`, `token_usage`, `processing_metadata`
instead of the `type`-tagged ones.  A JSON object may carry any subset, so
one record holds all of them. -/
structure Frame where
  token : Option String := none
  type : Option String := none
  citations : Option (List Citation) := none
  rewrites : Option (List String) := none
  usage : Option TokenUsage := none
  processing : Option ProcessingMetadata := none
  error : Option String := none
  done : Bool := false
  query_rewrites : Option (List String) := none
  token_usage : Option TokenUsage := none
  processing_metadata : Option ProcessingMetadata := none
deriving DecidableEq, Repr

/-- JS truthiness of an optional string field: present and non-empty. -/
def truthyStr : Option String → Bool
  | none => false
  | some s => s != ""

/-- One line of a decoded chunk, after the `line.startsWith('data: ')`
test and the `JSON.parse` attempt: a line without the marker, a data line
whose JSON fails to parse, or a decoded frame. -/
inductive RawLine where
  | noData
  | malformed
  | frame (f : Frame)
deriving DecidableEq, Repr

abbrev Chunk := List RawLine

/-- The mutable locals of the streaming loop in `sendMessage`:
`assistantMessage` (the accumulated text) and `messageIndex`
(`-1` embedded as `none`). -/
structure LoopAcc where
  st : ChatState
  assistantMessage : String
  messageIndex : Option Nat
deriving DecidableEq, Repr

/-- The `data.token` branch: append the payload to `assistantMessage`;
on the first token create a new assistant message at the end of the list
and record its index; afterwards replace that message's content, keeping
its role and timestamp (`existingMessage?.role || 'assistant'` and
`existingMessage?.timestamp || new Date()` — role strings and `Date`
objects are truthy, so the fallbacks fire only when the slot is absent). -/
def tokenStep (t : String) (acc : LoopAcc) : LoopAcc :=
  let newContent := acc.assistantMessage ++ t
  match acc.messageIndex with
  | none =>
      let i := acc.st.messages.length
      { st := { acc.st with
                  messages := acc.st.messages ++
                    [{ role := .assistant, content := newContent,
                       timestamp := acc.st.clock }]
                  clock := acc.st.clock + 1 }
        assistantMessage := newContent
        messageIndex := some i }
  | some i =>
      match acc.st.messages[i]? with
      | some m =>
          { st := { acc.st with
                      messages := acc.st.messages.set i
                        { role := m.role, content := newContent,
                          timestamp := m.timestamp } }
            assistantMessage := newContent
            messageIndex := some i }
      | none =>
          { st := { acc.st with
                      messages := acc.st.messages.set i
                        { role := .assistant, content := newContent,
                          timestamp := acc.st.clock }
                      clock := acc.st.clock + 1 }
            assistantMessage := newContent
            messageIndex := some i }

/-- Processing of one decoded frame by the CURRENT revision's handler
(`useChatStream.ts`, inner `try` body).  Returns the updated accumulator
and whether the `done` branch ran `break`.

`if (data.error) throw new Error(data.error)` is caught by the
enclosing `catch (parseError)` of the same line, which only logs: the
observable effect is that the frame is skipped and the loop continues. -/
def processFrame (f : Frame) (acc : LoopAcc) : LoopAcc × Bool :=
  if truthyStr f.error then (acc, false)
  else
    let acc := match f.token with
      | some t => if t != "" then tokenStep t acc else acc
      | none => acc
    let acc := if f.type = some "citations" then
        match f.citations with
        | some cs => { acc with st := { acc.st with citations := cs } }
        | none => acc
      else acc
    let acc := if f.type = some "query_rewrites" then
        match f.rewrites with
        | some rs => { acc with st := { acc.st with queryRewrites := rs } }
        | none => acc
      else acc
    let acc := if f.type = some "token_usage" then
        match f.usage with
        | some u => { acc with st := { acc.st with tokenUsage := some u } }
        | none => acc
      else acc
    let acc := if f.type = some "metadata" then
        match f.processing with
        | some p => { acc with st := { acc.st with processingMetadata := some p } }
        | none => acc
      else acc
    if f.done then
      ({ acc with st := { acc.st with isStreaming := false } }, true)
    else (acc, false)

def processLine (acc : LoopAcc) (l : RawLine) : LoopAcc × Bool :=
  match l with
  | .noData => (acc, false)
  | .malformed => (acc, false)
  | .frame f => processFrame f acc

/-- The `for (const line of lines)` loop over one chunk: `break` on `done`
abandons the remaining lines of THIS chunk only. -/
def processChunk (acc : LoopAcc) : Chunk → LoopAcc
  | [] => acc
  | l :: ls =>
      let r := processLine acc l
      if r.2 then r.1 else processChunk r.1 ls

/-- The `while (true)` read loop: one chunk per `reader.read()`, until the
channel closes.  The `break` inside the line loop does not stop this loop,
so frames arriving in later chunks are still processed. -/
def processChunks (acc : LoopAcc) (chunks : List Chunk) : LoopAcc :=
  chunks.foldl processChunk acc

/-- How the channel behaves for one `sendMessage` call: the fetch fails or
returns non-OK (`openFail`, throwing before any read), the reader delivers
some chunks and the channel closes (`ok`), or the reader delivers some
chunks and then a read rejects (`readFail`, throwing into the outer
catch). -/
inductive ChannelOutcome where
  | openFail (msg : String)
  | ok (chunks : List Chunk)
  | readFail (chunks : List Chunk) (msg : String)
deriving DecidableEq, Repr

/-- Steps of `sendMessage` before the fetch: append the user message, set
the loading and streaming flags, clear the previous turn's citations,
rewrites, usage and metadata. -/
def beginSend (content : String) (st : ChatState) : ChatState :=
  { st with
      messages := st.messages ++
        [{ role := .user, content := content, timestamp := st.clock }]
      clock := st.clock + 1
      isLoading := true
      isStreaming := true
      citations := []
      queryRewrites := []
      tokenUsage := none
      processingMetadata := none }

/-- The outer `catch`: append an assistant message `Error: <msg>`. -/
def appendErrorTurn (msg : String) (st : ChatState) : ChatState :=
  { st with
      messages := st.messages ++
        [{ role := .assistant, content := "Error: " ++ msg,
           timestamp := st.clock }]
      clock := st.clock + 1 }

/-- The `finally` block: clear both flags. -/
def finalize (st : ChatState) : ChatState :=
  { st with isLoading := false, isStreaming := false }

def runOutcome (o : ChannelOutcome) (st : ChatState) : ChatState :=
  match o with
  | .openFail msg => appendErrorTurn msg st
  | .ok chunks => (processChunks ⟨st, "", none⟩ chunks).st
  | .readFail chunks msg =>
      appendErrorTurn msg (processChunks ⟨st, "", none⟩ chunks).st

/-- The whole `sendMessage(content)` call of the current revision, as a
function of the channel outcome. -/
def sendMessage (content : String) (o : ChannelOutcome) (st : ChatState) :
    ChatState :=
  finalize (runOutcome o (beginSend content st))

/-- The id generator `session_${Date.now()}_${Math.random()...}`, with
the time observation and the random suffix as inputs. -/
def generateSessionId (now : Nat) (rand : String) : String :=
  "session_" ++ toString now ++ "_" ++ rand

def setItem (l : List (String × String)) (k v : String) :
    List (String × String) :=
  (k, v) :: l.filter (fun p => p.1 != k)

def getItem (l : List (String × String)) (k : String) : Option String :=
  (l.find? (fun p => p.1 == k)).map (·.2)

def clearMessages (st : ChatState) : ChatState :=
  { st with
      messages := []
      citations := []
      queryRewrites := []
      tokenUsage := none
      processingMetadata := none }

/-- The `startNewSession` action: allocate a fresh id, store it under the
mode's storage key, clear the client conversation state. -/
def startNewSession (mode rand : String) (st : ChatState) : ChatState :=
  let newId := generateSessionId st.clock rand
  clearMessages
    { st with
        sessionId := newId
        storage := setItem st.storage ("chat_session_" ++ mode) newId
        clock := st.clock + 1 }

/-- Processing of one decoded frame by the OLDER revision's handler
(`src/unnamed/part_005`): identical `error`, `token` and `done` handling,
but dispatching on the bare keys `citations`, `query_rewrites`,
`token_usage`, `processing_metadata` (JS arrays and objects are truthy
whenever present). -/
def oldProcessFrame (f : Frame) (acc : LoopAcc) : LoopAcc × Bool :=
  if truthyStr f.error then (acc, false)
  else
    let acc := match f.token with
      | some t => if t != "" then tokenStep t acc else acc
      | none => acc
    let acc := match f.citations with
      | some cs => { acc with st := { acc.st with citations := cs } }
      | none => acc
    let acc := match f.query_rewrites with
      | some rs => { acc with st := { acc.st with queryRewrites := rs } }
      | none => acc
    let acc := match f.token_usage with
      | some u => { acc with st := { acc.st with tokenUsage := some u } }
      | none => acc
    let acc := match f.processing_metadata with
      | some p => { acc with st := { acc.st with processingMetadata := some p } }
      | none => acc
    if f.done then
      ({ acc with st := { acc.st with isStreaming := false } }, true)
    else (acc, false)

def oldProcessLine (acc : LoopAcc) (l : RawLine) : LoopAcc × Bool :=
  match l with
  | .noData => (acc, false)
  | .malformed => (acc, false)
  | .frame f => oldProcessFrame f acc

def oldProcessChunk (acc : LoopAcc) : Chunk → LoopAcc
  | [] => acc
  | l :: ls =>
      let r := oldProcessLine acc l
      if r.2 then r.1 else oldProcessChunk r.1 ls

def oldProcessChunks (acc : LoopAcc) (chunks : List Chunk) : LoopAcc :=
  chunks.foldl oldProcessChunk acc

/-- A frame carrying only a `token` key. -/
def tokenFrame (s : String) : Frame := { token := some s }

/-- A frame carrying only `done: true`. -/
def doneFrame : Frame := { done := true }

/-- Concatenation of token payloads in delivery order. -/
def concatPayloads : List String → String
  | [] => ""
  | p :: ps => p ++ concatPayloads ps

def tokenLines : List String → Chunk
  | [] => []
  | p :: ps => RawLine.frame (tokenFrame p) :: tokenLines ps

/-- A frame carrying only an `error` key and only token/error/done fields. -/
def onlyTokenErrorDone (f : Frame) : Prop :=
  f.type = none ∧ f.citations = none ∧ f.rewrites = none ∧
  f.usage = none ∧ f.processing = none ∧ f.query_rewrites = none ∧
  f.token_usage = none ∧ f.processing_metadata = none

/-- C7: every exit path of `sendMessage` — normal completion, channel-open
failure, or mid-stream read failure — goes through the `finally` block,
so the loading and streaming flags are false afterwards in every case. -/
theorem sendMessage_clears_flags (content : String) (o : ChannelOutcome)
    (st : ChatState) :
    (sendMessage content o st).isLoading = false ∧
    (sendMessage content o st).isStreaming = false :=
  ⟨rfl, rfl⟩

/-- C6: at the start of every `sendMessage` call, before any event frame is
processed, the previous turn's citations, query rewrites, token usage and
processing metadata are cleared, and the whole call factors through that
cleared state: frames are only ever processed from `beginSend content st`. -/
theorem sendMessage_clears_stale (content : String) (o : ChannelOutcome)
    (st : ChatState) :
    (beginSend content st).citations = [] ∧
    (beginSend content st).queryRewrites = [] ∧
    (beginSend content st).tokenUsage = none ∧
    (beginSend content st).processingMetadata = none ∧
    sendMessage content o st = finalize (runOutcome o (beginSend content st)) :=
  ⟨rfl, rfl, rfl, rfl, rfl⟩

/-- C2 (code bug): an `error` frame does NOT abort the stream.  The
`throw new Error(data.error)` is caught by the per-line
`catch (parseError)` (which only logs), so on the stream
`error "boom"`, `token "rest"`, `done` the token frame AFTER the error
frame is still processed, the assistant turn holds `"rest"`, and no
assistant turn describing the error exists. -/
theorem error_frame_does_not_abort :
    (sendMessage "q"
      (.ok [[.frame { error := some "boom" }, .frame (tokenFrame "rest"),
             .frame doneFrame]]) initState).messages =
      [{ role := .user, content := "q", timestamp := 0 },
       { role := .assistant, content := "rest", timestamp := 1 }] := by
  decide

/-- C3 (code bug): `break` on `done` only leaves the per-chunk line loop.
A `done` frame suppresses the rest of ITS chunk, but a token frame
arriving in a subsequently read chunk is still processed and mutates the
message list. -/
theorem done_not_terminal_across_chunks :
    (sendMessage "q"
      (.ok [[.frame doneFrame], [.frame (tokenFrame "late")]])
      initState).messages =
      [{ role := .user, content := "q", timestamp := 0 },
       { role := .assistant, content := "late", timestamp := 1 }] ∧
    (sendMessage "q"
      (.ok [[.frame doneFrame, .frame (tokenFrame "late")]])
      initState).messages =
      [{ role := .user, content := "q", timestamp := 0 }] := by
  constructor <;> decide

/-- C4 counterexample: when the channel closes before any `done` or
`error` frame (here: it closes immediately), `sendMessage` does NOT
synthesize an assistant error turn — the message list afterwards holds
only the appended user turn. -/
theorem close_without_done_no_error_turn :
    (sendMessage "q" (.ok []) initState).messages =
      [{ role := .user, content := "q", timestamp := 0 }] := by
  decide

/-- C4 amended: an assistant `Error: ...` turn is appended when the
channel cannot be opened (request failure / non-OK response) or when a
mid-stream read fails; and on EVERY outcome — including a close without
`done` — the loading and streaming flags end false, so no stuck
in-flight state remains. -/
theorem open_or_read_failure_error_turn (content msg : String)
    (st : ChatState) (chunks : List Chunk) :
    (sendMessage content (.openFail msg) st).messages =
      (beginSend content st).messages ++
        [{ role := .assistant, content := "Error: " ++ msg,
           timestamp := (beginSend content st).clock }] ∧
    (sendMessage content (.readFail chunks msg) st).messages =
      (processChunks ⟨beginSend content st, "", none⟩ chunks).st.messages ++
        [{ role := .assistant, content := "Error: " ++ msg,
           timestamp := (processChunks ⟨beginSend content st, "", none⟩
             chunks).st.clock }] ∧
    (sendMessage content (.ok chunks) st).isLoading = false ∧
    (sendMessage content (.ok chunks) st).isStreaming = false :=
  ⟨rfl, rfl, rfl, rfl⟩

/-- C10: a `token` frame processed while `messageIndex` already points at
an existing message replaces only that message's content: its role and
originally recorded timestamp are preserved, every other message is
unchanged, and the list length is unchanged. -/
theorem token_replacement_preserves (st : ChatState) (a t : String)
    (i : Nat) (m : Message) (ht : t ≠ "")
    (hm : st.messages[i]? = some m) :
    ((processFrame (tokenFrame t) ⟨st, a, some i⟩).1.st.messages.length =
      st.messages.length) ∧
    ((processFrame (tokenFrame t) ⟨st, a, some i⟩).1.st.messages[i]? =
      some { role := m.role, content := a ++ t, timestamp := m.timestamp }) ∧
    (∀ j, j ≠ i →
      (processFrame (tokenFrame t) ⟨st, a, some i⟩).1.st.messages[j]? =
        st.messages[j]?) := by
  have hb : (t != "") = true := by simpa [bne_iff_ne] using ht
  have hlt : i < st.messages.length := by
    by_contra h
    rw [List.getElem?_eq_none (Nat.le_of_not_lt h)] at hm
    exact Option.noConfusion hm
  simp only [processFrame, tokenFrame, truthyStr, tokenStep, hb, hm]
  refine ⟨?_, ?_, ?_⟩
  · simp
  · simp [List.getElem?_set_eq_of_lt _ hlt]
  · intro j hj
    simp [List.getElem?_set_ne (Ne.symm hj)]

/-- Witness for C10 at a concrete state: replacing the second message's
content while the first message and the slot's role/timestamp survive. -/
theorem token_replacement_preserves_witness :
    ((processFrame (tokenFrame "llo")
        ⟨{ initState with
             messages := [{ role := .user, content := "q", timestamp := 0 },
                          { role := .assistant, content := "He",
                            timestamp := 1 }] },
          "He", some 1⟩).1.st.messages[1]? =
      some { role := Role.assistant, content := "Hello", timestamp := 1 }) ∧
    ((processFrame (tokenFrame "llo")
        ⟨{ initState with
             messages := [{ role := .user, content := "q", timestamp := 0 },
                          { role := .assistant, content := "He",
                            timestamp := 1 }] },
          "He", some 1⟩).1.st.messages[0]? =
      some { role := Role.user, content := "q", timestamp := 0 }) :=
  have h := token_replacement_preserves
    { initState with
        messages := [{ role := .user, content := "q", timestamp := 0 },
                     { role := .assistant, content := "He", timestamp := 1 }] }
    "He" "llo" 1 { role := .assistant, content := "He", timestamp := 1 }
    (by decide) rfl
  ⟨h.2.1, h.2.2 0 (by decide)⟩

def onlyTED (f : Frame) : Prop :=
  f.type = none ∧ f.citations = none ∧ f.rewrites = none ∧
  f.usage = none ∧ f.processing = none ∧ f.query_rewrites = none ∧
  f.token_usage = none ∧ f.processing_metadata = none

instance (f : Frame) : Decidable (onlyTED f) := by
  unfold onlyTED; infer_instance

def tedLine : RawLine → Prop
  | .noData => True
  | .malformed => True
  | .frame f => onlyTED f

instance (l : RawLine) : Decidable (tedLine l) := by
  cases l <;> unfold tedLine <;> infer_instance

theorem frame_ted_eq (f : Frame) (acc : LoopAcc) (hf : onlyTED f) :
    oldProcessFrame f acc = processFrame f acc := by
  obtain ⟨h1, h2, h3, h4, h5, h6, h7, h8⟩ := hf
  simp [oldProcessFrame, processFrame, h1, h2, h3, h4, h5, h6, h7, h8]

theorem chunk_ted_eq (c : Chunk) (acc : LoopAcc)
    (hc : ∀ l ∈ c, tedLine l) :
    oldProcessChunk acc c = processChunk acc c := by
  induction c generalizing acc with
  | nil => rfl
  | cons l ls ih =>
    have hls : ∀ x ∈ ls, tedLine x := fun x hx => hc x (by simp [hx])
    cases l with
    | noData =>
        simpa [oldProcessChunk, processChunk, oldProcessLine, processLine]
          using ih acc hls
    | malformed =>
        simpa [oldProcessChunk, processChunk, oldProcessLine, processLine]
          using ih acc hls
    | frame f =>
        have hl0 := hc (RawLine.frame f) (by simp)
        have hl : onlyTED f := hl0
        simp only [oldProcessChunk, processChunk, oldProcessLine, processLine,
          frame_ted_eq f acc hl]
        by_cases h : (processFrame f acc).2
        · simp [h]
        · simp only [h, if_false, Bool.false_eq_true]
          exact ih _ hls

theorem chunks_ted_eq (chunks : List Chunk) (acc : LoopAcc)
    (hc : ∀ c ∈ chunks, ∀ l ∈ c, tedLine l) :
    oldProcessChunks acc chunks = processChunks acc chunks := by
  induction chunks generalizing acc with
  | nil => rfl
  | cons c cs ih =>
    have h1 : ∀ l ∈ c, tedLine l := hc c (by simp)
    have h2 : ∀ x ∈ cs, ∀ l ∈ x, tedLine l := fun x hx => hc x (by simp [hx])
    simp only [oldProcessChunks, processChunks, List.foldl_cons]
    rw [chunk_ted_eq c acc h1]
    exact ih (processChunk acc c) h2

def demoCitation : Citation :=
  { id := "c1", title := "10-K", content := "excerpt", source := "SEC" }

/-- C9: on frame sequences whose frames carry only `token`, `error` and
`done` fields, the older handler revision (`src/unnamed/part_005`) and the
current one compute identical results (in particular identical assistant
message content); but on a frame with a bare `citations` key and no
`type` tag the old revision replaces the citation state while the current
one leaves it unchanged. -/
theorem revision_divergence :
    (∀ (acc : LoopAcc) (chunks : List Chunk),
        (∀ c ∈ chunks, ∀ l ∈ c, tedLine l) →
        oldProcessChunks acc chunks = processChunks acc chunks) ∧
    ((oldProcessFrame { citations := some [demoCitation] }
        ⟨initState, "", none⟩).1.st.citations = [demoCitation]) ∧
    ((processFrame { citations := some [demoCitation] }
        ⟨initState, "", none⟩).1.st.citations = []) :=
  ⟨fun acc chunks hc => chunks_ted_eq chunks acc hc, by decide, by decide⟩

/-- Witness for C9: the two revisions agree on a concrete
token-then-done stream. -/
theorem revision_divergence_witness :
    oldProcessChunks ⟨initState, "", none⟩
      [[.frame (tokenFrame "hi"), .frame doneFrame]] =
    processChunks ⟨initState, "", none⟩
      [[.frame (tokenFrame "hi"), .frame doneFrame]] :=
  revision_divergence.1 _ _ (by decide)

theorem processChunk_tokens_some (ps : List String) (rest : Chunk)
    (st : ChatState) (a : String) (ms : List Message) (r : Role) (ts : Nat)
    (hmsg : st.messages = ms ++ [{ role := r, content := a, timestamp := ts }]) :
    processChunk ⟨st, a, some ms.length⟩ (tokenLines ps ++ rest) =
      processChunk
        ⟨{ st with messages :=
             ms ++ [{ role := r, content := a ++ concatPayloads ps,
                      timestamp := ts }] },
          a ++ concatPayloads ps, some ms.length⟩ rest := by
  induction ps generalizing st a with
  | nil =>
      simp only [tokenLines, List.nil_append, concatPayloads,
        String.append_empty]
      rw [← hmsg]
  | cons p ps ih =>
      by_cases hp : p = ""
      · subst hp
        simp only [tokenLines, List.cons_append, processChunk,
          processLine, processFrame, tokenFrame, truthyStr, concatPayloads]
        simp only [bne_self_eq_false, if_false, String.empty_append]
        exact ih st a hmsg
      · have hb : (p != "") = true := by simpa [bne_iff_ne] using hp
        have key : processFrame (tokenFrame p) ⟨st, a, some ms.length⟩ =
            (⟨{ st with messages :=
                  ms ++ [{ role := r, content := a ++ p, timestamp := ts }] },
              a ++ p, some ms.length⟩, false) := by
          simp [processFrame, tokenFrame, truthyStr, hb, tokenStep, hmsg,
            List.getElem?_concat_length]
        simp only [tokenLines, List.cons_append, processChunk,
          processLine, key, Bool.false_eq_true, if_false]
        rw [List.append_eq]
        rw [ih { st with messages :=
              ms ++ [{ role := r, content := a ++ p, timestamp := ts }] }
            (a ++ p) rfl]
        simp [concatPayloads, String.append_assoc]

theorem processChunk_tokens_all_empty (ps : List String) (rest : Chunk)
    (st : ChatState) (h : ∀ p ∈ ps, p = "") :
    processChunk ⟨st, "", none⟩ (tokenLines ps ++ rest) =
      processChunk ⟨st, "", none⟩ rest := by
  induction ps with
  | nil => rfl
  | cons p ps ih =>
      have hp : p = "" := h p (by simp)
      subst hp
      simp only [tokenLines, List.cons_append, processChunk, processLine,
        processFrame, tokenFrame, truthyStr, bne_self_eq_false, if_false,
        Bool.false_eq_true]
      exact ih (fun q hq => h q (by simp [hq]))

theorem processChunk_tokens_first (ps : List String) (rest : Chunk)
    (st : ChatState) (h : ∃ p ∈ ps, p ≠ "") :
    processChunk ⟨st, "", none⟩ (tokenLines ps ++ rest) =
      processChunk
        ⟨{ st with
             messages := st.messages ++
               [{ role := .assistant, content := concatPayloads ps,
                  timestamp := st.clock }]
             clock := st.clock + 1 },
          concatPayloads ps, some st.messages.length⟩ rest := by
  induction ps generalizing st with
  | nil => exact absurd h (by simp)
  | cons p ps ih =>
      by_cases hp : p = ""
      · subst hp
        have h' : ∃ q ∈ ps, q ≠ "" := by
          rcases h with ⟨q, hq, hne⟩
          rcases List.mem_cons.mp hq with h1 | h1
          · exact absurd h1 hne
          · exact ⟨q, h1, hne⟩
        simp only [tokenLines, List.cons_append, processChunk, processLine,
          processFrame, tokenFrame, truthyStr, bne_self_eq_false, if_false,
          Bool.false_eq_true, concatPayloads, String.empty_append]
        exact ih st h'
      · have hb : (p != "") = true := by simpa [bne_iff_ne] using hp
        have key : processFrame (tokenFrame p) ⟨st, "", none⟩ =
            (⟨{ st with
                  messages := st.messages ++
                    [{ role := .assistant, content := p,
                       timestamp := st.clock }]
                  clock := st.clock + 1 },
              p, some st.messages.length⟩, false) := by
          simp [processFrame, tokenFrame, truthyStr, hb, tokenStep]
        simp only [tokenLines, List.cons_append, processChunk, processLine,
          key, Bool.false_eq_true, if_false]
        rw [List.append_eq]
        rw [processChunk_tokens_some ps rest
            { st with
                messages := st.messages ++
                  [{ role := .assistant, content := p, timestamp := st.clock }]
                clock := st.clock + 1 }
            p st.messages Role.assistant st.clock rfl]
        simp [concatPayloads]

def assistantCount (ms : List Message) : Nat :=
  (ms.filter (fun m => m.role == Role.assistant)).length

theorem sendMessage_tokens_done (ps : List String) (content : String)
    (st : ChatState) (h : ∃ p ∈ ps, p ≠ "") :
    (sendMessage content (.ok [tokenLines ps ++ [.frame doneFrame]])
      st).messages =
      st.messages ++
        [{ role := .user, content := content, timestamp := st.clock },
         { role := .assistant, content := concatPayloads ps,
           timestamp := st.clock + 1 }] := by
  simp only [sendMessage, runOutcome, processChunks, List.foldl_cons,
    List.foldl_nil]
  rw [processChunk_tokens_first ps [.frame doneFrame] (beginSend content st) h]
  simp [beginSend, finalize, processChunk, processLine, processFrame,
    doneFrame, truthyStr]

theorem tokenLines_append (ps qs : List String) :
    tokenLines (ps ++ qs) = tokenLines ps ++ tokenLines qs := by
  induction ps with
  | nil => rfl
  | cons p ps ih => simp [tokenLines, ih]

theorem processChunk_drop_malformed (ls1 ls2 : Chunk) (acc : LoopAcc) :
    processChunk acc (ls1 ++ .malformed :: ls2) =
      processChunk acc (ls1 ++ ls2) := by
  induction ls1 generalizing acc with
  | nil => rfl
  | cons l ls ih =>
      simp only [List.cons_append, processChunk]
      by_cases hl : (processLine acc l).2 <;> simp [hl, ih]

/-- C1 (amended): for a stream of N >= 1 token frames, at least one of
which has a non-empty payload, followed by `done`, exactly one assistant
turn is appended besides the user turn, and its content is the
concatenation of all token payloads in delivery order.  (The amendment:
the code tests `if (data.token)`, so a frame whose payload is the empty
string is skipped; a stream of only empty payloads creates no turn.) -/
theorem turn_collapsing (ps : List String) (content : String)
    (st : ChatState) (h : ∃ p ∈ ps, p ≠ "") :
    ((sendMessage content (.ok [tokenLines ps ++ [.frame doneFrame]])
        st).messages =
      st.messages ++
        [{ role := .user, content := content, timestamp := st.clock },
         { role := .assistant, content := concatPayloads ps,
           timestamp := st.clock + 1 }]) ∧
    (st.messages = [] →
      assistantCount
        (sendMessage content (.ok [tokenLines ps ++ [.frame doneFrame]])
          st).messages = 1) := by
  refine ⟨sendMessage_tokens_done ps content st h, fun he => ?_⟩
  rw [sendMessage_tokens_done ps content st h, he]
  simp [assistantCount]

/-- Witness for C1 at the spec's own scenario frames. -/
theorem turn_collapsing_witness :
    (sendMessage "Summarize risk factors"
      (.ok [tokenLines ["Risk ", "factors ", "are X."] ++
            [.frame doneFrame]]) initState).messages =
      [{ role := .user, content := "Summarize risk factors",
         timestamp := 0 },
       { role := .assistant, content := "Risk factors are X.",
         timestamp := 1 }] :=
  ((turn_collapsing ["Risk ", "factors ", "are X."]
      "Summarize risk factors" initState (by decide)).1).trans (by decide)

/-- C1 counterexample to the claim as stated: one token frame whose
payload is the empty string, followed by `done`, leaves NO assistant turn
in the message list (the claim demands exactly one). -/
theorem turn_collapsing_counterexample :
    (sendMessage "q" (.ok [tokenLines [""] ++ [.frame doneFrame]])
      initState).messages =
      [{ role := .user, content := "q", timestamp := 0 }] := by
  decide

/-- C5: a single undecodable frame between two runs of valid (non-empty
payload) token frames is skipped and the stream continues: the whole call
computes the same state as without the malformed frame, and the single
assistant turn's content is still the concatenation of the valid token
payloads in order. -/
theorem malformed_frame_resilience (ps1 ps2 : List String)
    (content : String) (st : ChatState) (h1 : ps1 ≠ []) (h2 : ps2 ≠ [])
    (hne : ∀ p ∈ ps1 ++ ps2, p ≠ "") :
    (sendMessage content
        (.ok [tokenLines ps1 ++ .malformed :: tokenLines ps2 ++
              [.frame doneFrame]]) st =
      sendMessage content
        (.ok [tokenLines (ps1 ++ ps2) ++ [.frame doneFrame]]) st) ∧
    (sendMessage content
        (.ok [tokenLines ps1 ++ .malformed :: tokenLines ps2 ++
              [.frame doneFrame]]) st).messages =
      st.messages ++
        [{ role := .user, content := content, timestamp := st.clock },
         { role := .assistant, content := concatPayloads (ps1 ++ ps2),
           timestamp := st.clock + 1 }] := by
  have hdrop :
      processChunk ⟨beginSend content st, "", none⟩
          (tokenLines ps1 ++
            RawLine.malformed :: (tokenLines ps2 ++ [.frame doneFrame])) =
        processChunk ⟨beginSend content st, "", none⟩
          (tokenLines ps1 ++ (tokenLines ps2 ++ [.frame doneFrame])) :=
    processChunk_drop_malformed (tokenLines ps1)
      (tokenLines ps2 ++ [.frame doneFrame])
      ⟨beginSend content st, "", none⟩
  have heq :
      sendMessage content
          (.ok [tokenLines ps1 ++ .malformed :: tokenLines ps2 ++
                [.frame doneFrame]]) st =
        sendMessage content
          (.ok [tokenLines (ps1 ++ ps2) ++ [.frame doneFrame]]) st := by
    simp only [sendMessage, runOutcome, processChunks, List.foldl_cons,
      List.foldl_nil, List.cons_append, tokenLines_append,
      List.append_assoc]
    rw [hdrop]
  refine ⟨heq, ?_⟩
  rw [heq]
  apply sendMessage_tokens_done
  rcases ps1 with _ | ⟨p, ps⟩
  · exact absurd rfl h1
  · exact ⟨p, by simp, hne p (by simp)⟩

theorem find?_filter_ne (l : List (String × String)) (key k : String)
    (hk : k ≠ key) :
    List.find? (fun p => p.1 == k) (l.filter (fun p => p.1 != key)) =
      List.find? (fun p => p.1 == k) l := by
  induction l with
  | nil => rfl
  | cons x xs ih =>
      by_cases hx : x.1 = key
      · have h1 : (x.1 != key) = false := by simp [hx]
        have h2 : (x.1 == k) = false := by simp [hx, Ne.symm hk]
        simp [List.filter_cons, List.find?_cons, h1, h2, ih]
      · have h1 : (x.1 != key) = true := by simp [hx]
        simp only [List.filter_cons, h1, if_true, List.find?_cons]
        by_cases h2 : (x.1 == k) <;> simp [h2, ih]

/-- C8: `startNewSession` allocates the generator's fresh id, persists it
under the mode's storage key `chat_session_<mode>`, clears the turn list,
citations, query rewrites, token usage and processing metadata, and
modifies nothing else: the loading and streaming flags are untouched and
every other storage key is unchanged. -/
theorem session_reset (mode rand : String) (st : ChatState) :
    (startNewSession mode rand st).sessionId =
      generateSessionId st.clock rand ∧
    getItem (startNewSession mode rand st).storage
        ("chat_session_" ++ mode) =
      some (generateSessionId st.clock rand) ∧
    (startNewSession mode rand st).messages = [] ∧
    (startNewSession mode rand st).citations = [] ∧
    (startNewSession mode rand st).queryRewrites = [] ∧
    (startNewSession mode rand st).tokenUsage = none ∧
    (startNewSession mode rand st).processingMetadata = none ∧
    (startNewSession mode rand st).isLoading = st.isLoading ∧
    (startNewSession mode rand st).isStreaming = st.isStreaming ∧
    (∀ k, k ≠ "chat_session_" ++ mode →
      getItem (startNewSession mode rand st).storage k =
        getItem st.storage k) := by
  refine ⟨rfl, ?_, rfl, rfl, rfl, rfl, rfl, rfl, rfl, ?_⟩
  · simp [startNewSession, clearMessages, getItem, setItem, List.find?_cons]
  · intro k hk
    simp only [startNewSession, clearMessages, getItem, setItem]
    rw [List.find?_cons]
    have h2 : (("chat_session_" ++ mode, generateSessionId st.clock rand).1
        == k) = false := by simp [Ne.symm hk]
    simp only [h2, Bool.false_eq_true, if_false]
    rw [find?_filter_ne st.storage ("chat_session_" ++ mode) k hk]

/-- Witness for C8 at a concrete state: fresh id stored under the key,
other keys untouched. -/
theorem session_reset_witness :
    (startNewSession "fast-rag" "abc123xyz"
        { initState with storage := [("other_key", "v")] }).sessionId =
      generateSessionId 0 "abc123xyz" ∧
    getItem (startNewSession "fast-rag" "abc123xyz"
        { initState with storage := [("other_key", "v")] }).storage
        "other_key" =
      getItem ({ initState with
          storage := [("other_key", "v")] } : ChatState).storage
        "other_key" :=
  have h := session_reset "fast-rag" "abc123xyz"
    { initState with storage := [("other_key", "v")] }
  ⟨h.1, h.2.2.2.2.2.2.2.2.2 "other_key" (by decide)⟩

/-- Witness for C5: a malformed frame between two concrete token frames
leaves the turn content intact. -/
theorem malformed_frame_resilience_witness :
    (sendMessage "q"
      (.ok [tokenLines ["Hello "] ++ .malformed :: tokenLines ["world"] ++
            [.frame doneFrame]]) initState).messages =
      [{ role := .user, content := "q", timestamp := 0 },
       { role := .assistant, content := "Hello world", timestamp := 1 }] :=
  ((malformed_frame_resilience ["Hello "] ["world"] "q" initState
      (by decide) (by decide) (by decide)).2).trans (by decide)
